import Mathlib

/-!
Verification development for the RiftNet transport core.

This file embeds, in Lean, the parts of the RiftNet C++ sources that the
checked properties are about:

* the wire codec of `include/core/protocols.hpp` (outer 11-byte header,
  17-byte reliability sub-header, big-endian byte helpers),
* the reliability engine of `src/core/UDPReliabilityProtocol.cpp`
  (framed packet write/read, `PrepareOutgoingPacketsFramed`,
  `ProcessIncomingHeader` / `ProcessIncomingWire`),
* the secure channel of `src/core/SecureChannel.cpp` (nonce expansion and
  the initialized/uninitialized behaviour of `Encrypt` / `Decrypt`), and
* the per-connection send and receive paths of `src/core/Connection.cpp`
  (`SendFramed`, `SendSecure`, `HandleRawPacket`, the `nonceTx` / `nonceRx`
  counters).

Machine integers are modelled as `Nat` with explicit `% 2 ^ w` where the
C++ performs wrapping; the places where C++ integer promotion makes a
`uint16_t` subtraction signed before a cast to `uint32_t` are modelled with
`Int` arithmetic (`cppU32Diff`, `cppU16Diff`).  Byte buffers are `List Nat`.
Wall-clock time stamps are passed in as explicit `now` arguments; the
floating-point RTT/RTO estimator state is omitted because no modelled
field depends on it (the C++ RTT update touches only the float fields).
The AEAD cipher, the LZ4 compressor and the X25519 key derivation are
external libraries and are abstracted as function parameters carried by
the modelled objects.
-/

namespace RiftNet

/-! ## Protocol constants (protocols.hpp) -/

def PROTOCOL_MAGIC : Nat := 0x52494654

def PROTOCOL_VERSION : Nat := 0x0001

def MAX_PACKET_SIZE : Nat := 1024

def HEADER_WIRE_SIZE : Nat := 11

def MAX_PAYLOAD_SIZE : Nat := MAX_PACKET_SIZE - HEADER_WIRE_SIZE

def RELIABLE_HDR_WIRE_SIZE : Nat := 17

def MAX_PACKET_RETRIES : Nat := 10

/-- `UDPReliabilityProtocol::MaxBodySize()`: 1024 - outer(11) - reliable(17). -/
def MaxBodySize : Nat := MAX_PACKET_SIZE - HEADER_WIRE_SIZE - RELIABLE_HDR_WIRE_SIZE

/-- Byte values of the `PacketType` enum (protocols.hpp). -/
def PT_Handshake : Nat := 0x00

def PT_ReliableAck : Nat := 0x01

def PT_PlayerAction : Nat := 0x02

def PT_ChatMessage : Nat := 0x03

def PT_GameState : Nat := 0x04

def PT_Heartbeat : Nat := 0x05

def PT_EchoTest : Nat := 0x06

/-! ## Big-endian byte helpers (protocols.hpp)

`be_writeN` produces the byte list a C++ `be_writeN` stores into `p[0..]`;
`be_readN l off` reads the way `be_readN(p)` reads from `p = l.data + off`,
with `getD _ 0` standing for an in-bounds pointer dereference. -/

def be_write16 (v : Nat) : List Nat :=
  [(v >>> 8) &&& 0xFF, v &&& 0xFF]

def be_write32 (v : Nat) : List Nat :=
  [(v >>> 24) &&& 0xFF, (v >>> 16) &&& 0xFF, (v >>> 8) &&& 0xFF, v &&& 0xFF]

def be_write64 (v : Nat) : List Nat :=
  [(v >>> 56) &&& 0xFF, (v >>> 48) &&& 0xFF, (v >>> 40) &&& 0xFF, (v >>> 32) &&& 0xFF,
   (v >>> 24) &&& 0xFF, (v >>> 16) &&& 0xFF, (v >>> 8) &&& 0xFF, v &&& 0xFF]

def be_read16 (l : List Nat) (off : Nat) : Nat :=
  (l.getD off 0 <<< 8) ||| l.getD (off + 1) 0

def be_read32 (l : List Nat) (off : Nat) : Nat :=
  (l.getD off 0 <<< 24) ||| (l.getD (off + 1) 0 <<< 16) |||
    (l.getD (off + 2) 0 <<< 8) ||| l.getD (off + 3) 0

def be_read64 (l : List Nat) (off : Nat) : Nat :=
  (l.getD off 0 <<< 56) ||| (l.getD (off + 1) 0 <<< 48) |||
    (l.getD (off + 2) 0 <<< 40) ||| (l.getD (off + 3) 0 <<< 32) |||
    (l.getD (off + 4) 0 <<< 24) ||| (l.getD (off + 5) 0 <<< 16) |||
    (l.getD (off + 6) 0 <<< 8) ||| l.getD (off + 7) 0

/-! ## Wire headers (protocols.hpp)

`type` fields hold the raw byte of the C++ `PacketType` enum. -/

structure PacketHeader where
  magic : Nat
  version : Nat
  length : Nat
  type : Nat
  seq : Nat
  deriving Repr, DecidableEq

structure ReliablePacketHeader where
  seq : Nat
  ack : Nat
  ackBitfield : Nat
  type : Nat
  nonce : Nat
  deriving Repr, DecidableEq

inductive ParseError where
  | noErr
  | tooShort
  | badMagic
  | unsupportedVer
  | lengthTooLarge
  deriving Repr, DecidableEq

inductive ReliableParseError where
  | noErr
  | tooShort
  deriving Repr, DecidableEq

/-- `serialize_header` (protocols.hpp): 11 bytes, big-endian; the type byte is
the `static_cast<uint8_t>` of the enum, i.e. the low byte. -/
def serialize_header (h : PacketHeader) : List Nat :=
  be_write32 h.magic ++ be_write16 h.version ++ be_write16 h.length ++
    [h.type &&& 0xFF] ++ be_write16 h.seq

/-- `parse_header` (protocols.hpp).  The C++ value-initialized `PacketHeader h{}`
returned on `TooShort` is all zeros. -/
def parse_header (l : List Nat) : PacketHeader × ParseError :=
  if l.length < HEADER_WIRE_SIZE then (⟨0, 0, 0, 0, 0⟩, ParseError.tooShort)
  else
    let h : PacketHeader :=
      ⟨be_read32 l 0, be_read16 l 4, be_read16 l 6, l.getD 8 0, be_read16 l 9⟩
    if h.magic ≠ PROTOCOL_MAGIC then (h, ParseError.badMagic)
    else if h.version ≠ PROTOCOL_VERSION then (h, ParseError.unsupportedVer)
    else if h.length > MAX_PAYLOAD_SIZE then (h, ParseError.lengthTooLarge)
    else (h, ParseError.noErr)

/-- `serialize_reliable_header` (protocols.hpp): 17 bytes. -/
def serialize_reliable_header (rh : ReliablePacketHeader) : List Nat :=
  be_write16 rh.seq ++ be_write16 rh.ack ++ be_write32 rh.ackBitfield ++
    [rh.type &&& 0xFF] ++ be_write64 rh.nonce

/-- `parse_reliable_header(data, len)` (protocols.hpp); `data` is the byte run
after the outer header and `len` the length the caller claims for it. -/
def parse_reliable_header (l : List Nat) (len : Nat) :
    ReliablePacketHeader × ReliableParseError :=
  if len < RELIABLE_HDR_WIRE_SIZE then (⟨0, 0, 0, 0, 0⟩, ReliableParseError.tooShort)
  else
    (⟨be_read16 l 0, be_read16 l 2, be_read32 l 4, l.getD 8 0, be_read64 l 9⟩,
      ReliableParseError.noErr)

/-! ## Framed packet write / read (UDPReliabilityProtocol.cpp) -/

/-- `UDPReliabilityProtocol::WriteFramedReliablePacket`.  `payloadLen` is the
`uint16_t` byte count the caller passes next to the `payload` buffer; the
`memcpy` of `payloadLen` bytes is `payload.take payloadLen`.  The outer header
mirrors the reliable `seq`; the dead `rel.type = packetId` assignment after
serialization in the C++ is not observable and is not modelled.  Returns
`none` when the C++ returns `false` (total wire over `MAX_PACKET_SIZE`). -/
def WriteFramedReliablePacket (packetId : Nat) (relHdr : ReliablePacketHeader)
    (payload : List Nat) (payloadLen : Nat) : Option (List Nat) :=
  let totalPayload := (RELIABLE_HDR_WIRE_SIZE + payloadLen) % 65536
  let totalWire := (HEADER_WIRE_SIZE + totalPayload) % 65536
  if totalWire > MAX_PACKET_SIZE then none
  else
    some (serialize_header ⟨PROTOCOL_MAGIC, PROTOCOL_VERSION, totalPayload, packetId, relHdr.seq⟩
      ++ serialize_reliable_header relHdr ++ payload.take payloadLen)

/-- `UDPReliabilityProtocol::ReadFramedReliablePacket`: `none` when the C++
returns `false`; otherwise the outer header, the reliability sub-header and
the body slice `wire + 28` of length `outer.length - 17`. -/
def ReadFramedReliablePacket (wire : List Nat) :
    Option (PacketHeader × ReliablePacketHeader × List Nat) :=
  if wire.length < HEADER_WIRE_SIZE + RELIABLE_HDR_WIRE_SIZE then none
  else
    let ph := parse_header wire
    if ph.2 ≠ ParseError.noErr then none
    else if wire.length < HEADER_WIRE_SIZE + ph.1.length then none
    else if ph.1.length < RELIABLE_HDR_WIRE_SIZE then none
    else
      let pr := parse_reliable_header (wire.drop HEADER_WIRE_SIZE) ph.1.length
      if pr.2 ≠ ReliableParseError.noErr then none
      else
        some (ph.1, pr.1,
          (wire.drop (HEADER_WIRE_SIZE + RELIABLE_HDR_WIRE_SIZE)).take
            (ph.1.length - RELIABLE_HDR_WIRE_SIZE))

/-! ## Reliability state (protocols.hpp `ReliableConnectionState`)

The float RTT/RTO fields (`smoothedRTT_ms`, `rttVariance_ms`,
`retransmissionTimeout_ms`, `isFirstRTTSample`) and the two
`steady_clock::time_point` fields are omitted: no modelled field reads them
(`ApplyRTTSampleUnlocked` writes only those float fields), and wall-clock
time enters the model as explicit `now` arguments instead. -/

structure ReliablePacket where
  sequenceNumber : Nat
  packetType : Nat
  nonce : Nat
  data : List Nat
  timeSentMs : Nat
  retries : Nat
  deriving Repr, DecidableEq

structure ReliableConnectionState where
  nextOutgoingSequenceNumber : Nat
  highestReceivedSequenceNumber : Nat
  receivedSequenceBitfield : Nat
  unacknowledgedSentPackets : List ReliablePacket
  connectionDroppedByMaxRetries : Bool
  hasPendingAckToSend : Bool
  isConnected : Bool
  deriving Repr, DecidableEq

/-- Member initializers of `ReliableConnectionState`:
`nextOutgoingSequenceNumber{1}`, `highestReceivedSequenceNumber{0}`,
`receivedSequenceBitfield{0}`, empty in-flight list. -/
def initReliableState : ReliableConnectionState :=
  ⟨1, 0, 0, [], false, false, true⟩

/-- `UDPReliabilityProtocol::IsSequenceMoreRecent` with
`halfRange = 0x8000`; note the `>=` in the wrapped branch. -/
def IsSequenceMoreRecent (s1 s2 : Nat) : Bool :=
  (s1 > s2 && s1 - s2 < 32768) || (s2 > s1 && s2 - s1 ≥ 32768)

/-- `static_cast<uint16_t>(a - b)` for `uint16_t a, b`: the subtraction is
performed on promoted `int` and reduced mod 2^16 by the cast. -/
def cppU16Diff (a b : Nat) : Nat :=
  (((a : Int) - (b : Int)) % 65536).toNat

/-- `static_cast<uint32_t>(a - b)` for `uint16_t a, b`: the subtraction is
performed on promoted `int` (it can be negative) and the cast reduces the
signed value mod 2^32.  This is the promotion the receive-window update in
`ProcessIncomingHeader` actually performs. -/
def cppU32Diff (a b : Nat) : Nat :=
  (((a : Int) - (b : Int)) % 4294967296).toNat

/-- The per-entry acknowledgement test of `ProcessIncomingHeader`:
`header.ack == sent.seq`, or `header.ack` more recent with
`diff = uint16(header.ack - sent.seq)` in `[1, 32]` and bit `diff - 1` of
`header.ackBitfield` set. -/
def ackMatches (ack ackBitfield seqN : Nat) : Bool :=
  if ack = seqN then true
  else if IsSequenceMoreRecent ack seqN then
    let diff := cppU16Diff ack seqN
    if 1 ≤ diff ∧ diff ≤ 32 then ((ackBitfield >>> (diff - 1)) &&& 1) = 1
    else false
  else false

/-- `UDPReliabilityProtocol::PrepareOutgoingPacketsFramed`.  The C++ clamps an
oversized `payloadSize` to `MaxBodySize()` ("clamp for now") and proceeds; the
sequence number is consumed by `state.nextOutgoingSequenceNumber++` (plain
`uint16_t` wrap) before the write; every successfully framed packet is
appended to `unacknowledgedSentPackets` with `retries = 0` and
`timeSentMs = NowMs()`, modelled by the explicit `now` argument.  Returns the
produced packets list and the updated state. -/
def PrepareOutgoingPacketsFramed (st : ReliableConnectionState) (packetType : Nat)
    (payload : List Nat) (nonce now : Nat) :
    List (List Nat) × ReliableConnectionState :=
  let payloadSize := if payload.length > MaxBodySize then MaxBodySize else payload.length
  let seq := st.nextOutgoingSequenceNumber
  let st1 := { st with nextOutgoingSequenceNumber := (st.nextOutgoingSequenceNumber + 1) % 65536 }
  let relHdr : ReliablePacketHeader :=
    ⟨seq, st1.highestReceivedSequenceNumber, st1.receivedSequenceBitfield, packetType, nonce⟩
  match WriteFramedReliablePacket packetType relHdr payload payloadSize with
  | none => ([], st1)
  | some wire =>
      ([wire],
        { st1 with unacknowledgedSentPackets :=
            st1.unacknowledgedSentPackets ++ [⟨seq, packetType, nonce, wire, now, 0⟩] })

/-- `UDPReliabilityProtocol::ProcessIncomingHeader`.  Returns
`(delivered, outPayload, state)`.  The erase-loop over
`unacknowledgedSentPackets` keeps exactly the entries whose `ackMatches` test
fails (the RTT sampling performed for removed first-transmission entries
writes only the omitted float fields).  The receive-window update uses the
promoted subtractions `cppU32Diff`; a `uint32_t` left shift wraps mod 2^32. -/
def ProcessIncomingHeader (st : ReliableConnectionState) (header : ReliablePacketHeader)
    (payload : List Nat) : Bool × List Nat × ReliableConnectionState :=
  let kept := st.unacknowledgedSentPackets.filter
    (fun p => ! ackMatches header.ack header.ackBitfield p.sequenceNumber)
  let st1 := { st with unacknowledgedSentPackets := kept }
  if IsSequenceMoreRecent header.seq st1.highestReceivedSequenceNumber then
    let diff := cppU32Diff header.seq st1.highestReceivedSequenceNumber
    let shifted := if diff < 32 then (st1.receivedSequenceBitfield <<< diff) % 4294967296 else 0
    let st2 := { st1 with
        receivedSequenceBitfield := shifted ||| 1,
        highestReceivedSequenceNumber := header.seq }
    let isZeroLenCtrl := payload.length = 0 ∧
      (header.type = PT_ReliableAck ∨ header.type = PT_Heartbeat)
    (true, payload,
      if ¬ isZeroLenCtrl then { st2 with hasPendingAckToSend := true } else st2)
  else
    let diff := cppU32Diff st1.highestReceivedSequenceNumber header.seq
    if diff < 32 then
      if ((st1.receivedSequenceBitfield >>> diff) &&& 1) = 1 then
        (false, [], { st1 with hasPendingAckToSend := true })
      else
        let st2 := { st1 with
            receivedSequenceBitfield := st1.receivedSequenceBitfield ||| (1 <<< diff) }
        let isZeroLenCtrl := payload.length = 0 ∧
          (header.type = PT_ReliableAck ∨ header.type = PT_Heartbeat)
        (true, payload,
          if ¬ isZeroLenCtrl then { st2 with hasPendingAckToSend := true } else st2)
    else
      (false, [], st1)

/-- `UDPReliabilityProtocol::ProcessIncomingWire`: parse the framed wire, then
run `ProcessIncomingHeader`; the out packet id is `rel.type`.  On a parse
failure the C++ returns `false` with the caller's value-initialized
`pktId{}` (byte 0) and a cleared payload, and the state untouched. -/
def ProcessIncomingWire (st : ReliableConnectionState) (wire : List Nat) :
    Bool × Nat × List Nat × ReliableConnectionState :=
  match ReadFramedReliablePacket wire with
  | none => (false, 0, [], st)
  | some (_outer, rel, body) =>
      let r := ProcessIncomingHeader st rel body
      (r.1, rel.type, r.2.1, r.2.2)

/-! ## Secure channel (SecureChannel.cpp)

The ChaCha20-Poly1305 objects behind `txCipher` / `rxCipher` are external
library state; they are modelled as abstract functions from (data, expanded
nonce bytes) to output bytes, with `none` standing for a null `unique_ptr`.
The library decrypt reports failure with an empty output vector, which is how
`Decrypt` tests it. -/

structure SecureChannel where
  initialized : Bool
  txCipher : Option (List Nat → List Nat → List Nat)
  rxCipher : Option (List Nat → List Nat → List Nat)

/-- `SecureChannel::ExpandNonce`: a 12-byte buffer, zero in bytes 0-3, with
the 64-bit nonce big-endian in bytes 4-11 (`nonceBuf[11 - i]` gets byte `i`). -/
def expandNonce (nonce : Nat) : List Nat :=
  [0, 0, 0, 0,
   (nonce >>> 56) &&& 0xFF, (nonce >>> 48) &&& 0xFF, (nonce >>> 40) &&& 0xFF,
   (nonce >>> 32) &&& 0xFF, (nonce >>> 24) &&& 0xFF, (nonce >>> 16) &&& 0xFF,
   (nonce >>> 8) &&& 0xFF, nonce &&& 0xFF]

/-- `SecureChannel::Encrypt`: `{}` when `!initialized || !txCipher`; the
channel members are returned unchanged to make the absence of state
mutation explicit. -/
def SecureChannel.Encrypt (ch : SecureChannel) (plainData : List Nat) (nonce : Nat) :
    List Nat × SecureChannel :=
  match ch.initialized, ch.txCipher with
  | true, some cipher => (cipher plainData (expandNonce nonce), ch)
  | _, _ => ([], ch)

/-- `SecureChannel::Decrypt`: `false` when `!initialized || !rxCipher` or when
the library returns an empty vector; on failure the caller's `outPlainData`
buffer is left as it was. -/
def SecureChannel.Decrypt (ch : SecureChannel) (encryptedData outPlainData : List Nat)
    (nonce : Nat) : Bool × List Nat × SecureChannel :=
  match ch.initialized, ch.rxCipher with
  | true, some cipher =>
      let result := cipher encryptedData (expandNonce nonce)
      if result.isEmpty then (false, outPlainData, ch)
      else (true, result, ch)
  | _, _ => (false, outPlainData, ch)

/-! ## Connection (Connection.cpp)

`keyDerive` abstracts `KeyExchange::SetRemotePublicKey` +
`DeriveSharedKey` + `SecureChannel::Initialize` on the 32-byte peer key
(`none` = derivation failed); `compress` abstracts the LZ4 compressor
(`none` = the compressor threw); `decompress` likewise for the receive
side.  The endpoint, callbacks and log output do not affect the modelled
state and are omitted. -/

structure Connection where
  handshakeComplete : Bool
  nonceRx : Nat
  nonceTx : Nat
  reliabilityState : ReliableConnectionState
  secureChannel : SecureChannel
  keyDerive : List Nat → Option SecureChannel
  compress : List Nat → Option (List Nat)
  decompress : List Nat → Option (List Nat)

/-- `Connection::Connection`: `handshakeComplete(false)`, `nonceRx(1)`,
`nonceTx(1)`, default reliability state, uninitialized channel. -/
def Connection.mkInit (kd : List Nat → Option SecureChannel)
    (comp decomp : List Nat → Option (List Nat)) : Connection :=
  ⟨false, 1, 1, initReliableState, ⟨false, none, none⟩, kd, comp, decomp⟩

/-- `Connection::SendFramed`: no-op before the handshake or on an empty
frame; otherwise encrypt the framed wire with `nonceTx++` (the counter
advances whether or not the encryption yields bytes) and emit the
ciphertext.  Returns the connection and the datagram handed to the send
callback, if any. -/
def Connection.SendFramed (c : Connection) (framedWire : List Nat) :
    Connection × Option (List Nat) :=
  if c.handshakeComplete = false then (c, none)
  else if framedWire.isEmpty then (c, none)
  else
    let r := c.secureChannel.Encrypt framedWire c.nonceTx
    let c1 := { c with nonceTx := c.nonceTx + 1, secureChannel := r.2 }
    if r.1.isEmpty then (c1, none) else (c1, some r.1)

/-- `Connection::SendSecure`: compress, then encrypt with `nonceTx++` and
emit; returns before consuming a nonce when the compressor throws or
produces no bytes. -/
def Connection.SendSecure (c : Connection) (data : List Nat) :
    Connection × Option (List Nat) :=
  if c.handshakeComplete = false then (c, none)
  else
    match c.compress data with
    | none => (c, none)
    | some compressed =>
        if compressed.isEmpty then (c, none)
        else
          let r := c.secureChannel.Encrypt compressed c.nonceTx
          let c1 := { c with nonceTx := c.nonceTx + 1, secureChannel := r.2 }
          if r.1.isEmpty then (c1, none) else (c1, some r.1)

/-- `Connection::HandleRawPacket`.  Pre-handshake: a 32-byte datagram is the
peer public key (derive keys, initialize the channel, mark established);
any other size is dropped.  Post-handshake: decrypt the whole datagram with
the single candidate nonce `nonceRx++` (the counter advances whether or not
decryption succeeds), then run the reliability layer, filter control /
empty bodies, decompress, and deliver `(pktId, plaintext)` to the
application callback.  Returns the connection and the delivered payload,
if any. -/
def Connection.HandleRawPacket (c : Connection) (raw : List Nat) :
    Connection × Option (Nat × List Nat) :=
  if c.handshakeComplete = false then
    if raw.length = 32 then
      match c.keyDerive raw with
      | none => (c, none)
      | some ch => ({ c with secureChannel := ch, handshakeComplete := true }, none)
    else (c, none)
  else
    let d := c.secureChannel.Decrypt raw [] c.nonceRx
    let c1 := { c with nonceRx := c.nonceRx + 1, secureChannel := d.2.2 }
    if d.1 = false then (c1, none)
    else
      let pr := ProcessIncomingWire c1.reliabilityState d.2.1
      let c2 := { c1 with reliabilityState := pr.2.2.2 }
      if pr.1 = false then (c2, none)
      else
        let pktId := pr.2.1
        let body := pr.2.2.1
        if pktId = PT_ReliableAck ∨ (pktId = PT_Heartbeat ∧ body.isEmpty) then (c2, none)
        else if body.isEmpty then (c2, none)
        else
          match c2.decompress body with
          | none => (c2, none)
          | some dec => if dec.isEmpty then (c2, none) else (c2, some (pktId, dec))

/-! ## Traces

Small harnesses that replay sequences of the embedded operations, used to
state trace properties (nonce monotonicity, sequence advancement,
at-most-once delivery). -/

/-- One application-triggered send on a connection: `SendFramed` covers both
fresh sends of framed wires (via `SendPacket` / `SendReliable`) and
retransmissions, which re-send a stored in-flight wire through the same
path; `SendSecure` is the non-reliable compressed send. -/
inductive SendOp where
  | framed (frame : List Nat)
  | secure (data : List Nat)

def applySendOp (c : Connection) (op : SendOp) : Connection × Option (List Nat) :=
  match op with
  | SendOp.framed frame => c.SendFramed frame
  | SendOp.secure data => c.SendSecure data

/-- Replay a list of send operations.  The second component records one
entry per operation: the transmit nonce the operation consumed, if any
(observable as the `nonceTx` counter advancing past its entry value), and
the encrypted datagram it emitted, if any. -/
def runSendOps (c : Connection) (ops : List SendOp) :
    Connection × List (Option Nat × Option (List Nat)) :=
  match ops with
  | [] => (c, [])
  | op :: rest =>
      let r0 := applySendOp c op
      let used := if r0.1.nonceTx = c.nonceTx then none else some c.nonceTx
      let r := runSendOps r0.1 rest
      (r.1, (used, r0.2) :: r.2)

/-- Arguments of one `PrepareOutgoingPacketsFramed` call. -/
structure PrepareCall where
  ptype : Nat
  payload : List Nat
  nonce : Nat
  now : Nat

/-- Replay a list of `PrepareOutgoingPacketsFramed` calls against the state. -/
def foldPrepare (st : ReliableConnectionState) (calls : List PrepareCall) :
    ReliableConnectionState :=
  calls.foldl
    (fun s c => (PrepareOutgoingPacketsFramed s c.ptype c.payload c.nonce c.now).2) st

/-- Replay a list of incoming `(sub-header, body)` frames through
`ProcessIncomingHeader`, collecting the delivered flag of each frame. -/
def runIncomingDeliveries (st : ReliableConnectionState)
    (frames : List (ReliablePacketHeader × List Nat)) :
    List Bool × ReliableConnectionState :=
  match frames with
  | [] => ([], st)
  | f :: rest =>
      let r := ProcessIncomingHeader st f.1 f.2
      let rr := runIncomingDeliveries r.2.2 rest
      (r.1 :: rr.1, rr.2)

/-! ## Spec-side predicates

These two definitions follow the words of the specification (not the code);
they exist to be compared against the embedded code. -/

/-- Modelled from the spec, section 4.5.2: "S1 more-recent than S2" is
`((S1 > S2) && (S1 - S2 < 2^15)) || ((S2 > S1) && (S2 - S1 > 2^15))`
(note the strict `>` in the wrapped branch, where the code uses `>=`). -/
def specMoreRecent (s1 s2 : Nat) : Prop :=
  (s1 > s2 ∧ s1 - s2 < 32768) ∨ (s2 > s1 ∧ s2 - s1 > 32768)

instance (s1 s2 : Nat) : Decidable (specMoreRecent s1 s2) := by
  unfold specMoreRecent
  infer_instance

/-- Modelled from the spec (claim C6 / section 4.5.2 ACK processing): entry
seq is acknowledged by `(ack = A, bitfield = B)` iff `seq = A`, or `A` is
more-recent than `seq` (wrap-aware over u16) and the wrapped difference
`A - seq` lies in `[1, 32]` and bit `A - seq - 1` of `B` is set. -/
def specAckCovered (a b seqN : Nat) : Prop :=
  seqN = a ∨
    (specMoreRecent a seqN ∧
      1 ≤ (a + 65536 - seqN) % 65536 ∧ (a + 65536 - seqN) % 65536 ≤ 32 ∧
      Nat.testBit b ((a + 65536 - seqN) % 65536 - 1))

instance (a b seqN : Nat) : Decidable (specAckCovered a b seqN) := by
  unfold specAckCovered specMoreRecent
  infer_instance

/-! ## Concrete fixtures

Closed values used to evaluate the embedded operations at specific inputs. -/

/-- A reliability sub-header with the given sequence number, no
acknowledgement content, `PlayerAction` type. -/
def mkTestHeader (s : Nat) : ReliablePacketHeader :=
  ⟨s, 0, 0, PT_PlayerAction, 0⟩

/-- An initialized channel whose decryption succeeds exactly when the
expanded nonce is `expandNonce 2` (the AEAD authenticates only nonce 2). -/
def chanOkAt2 : SecureChannel :=
  ⟨true, none, some (fun _data nb => if nb = expandNonce 2 then [7] else [])⟩

/-- An initialized channel whose decryption always fails. -/
def chanRxFail : SecureChannel :=
  ⟨true, none, some (fun _data _nb => [])⟩

/-- An established connection (fresh counters) over the given channel. -/
def estConn (ch : SecureChannel) : Connection :=
  ⟨true, 1, 1, initReliableState, ch, fun _ => none, fun x => some x, fun x => some x⟩

/-- Two in-flight entries with sequence numbers 3 and 7. -/
def entrySeq3 : ReliablePacket := ⟨3, PT_PlayerAction, 0, [1], 50, 0⟩

def entrySeq7 : ReliablePacket := ⟨7, PT_PlayerAction, 0, [2], 60, 0⟩

/-- A reliability state holding `entrySeq3` and `entrySeq7` in flight. -/
def stTwoInflight : ReliableConnectionState :=
  ⟨9, 0, 0, [entrySeq3, entrySeq7], false, false, true⟩

/-- A sub-header carrying `(ack = 7, bitfield = 8)`: bit 3 acknowledges
sequence `7 - 1 - 3 = 3`. -/
def hdrAck7 : ReliablePacketHeader := ⟨1, 7, 8, PT_PlayerAction, 0⟩

/-- A reliability state that has already accepted sequence 10
(`highestReceivedSequenceNumber = 10`, window bit 0 set). -/
def stSeen10 : ReliableConnectionState := ⟨5, 10, 1, [], false, false, true⟩

/-- The byte layout produced by `WriteFramedReliablePacket` for an outer
header `(M, V, L, T, S)` and sub-header `(s, a, b, t, n)` over `body`. -/
def framedWire (M V L T S s a b t n : Nat) (body : List Nat) : List Nat :=
  serialize_header ⟨M, V, L, T, S⟩ ++ serialize_reliable_header ⟨s, a, b, t, n⟩ ++ body

/-- A 29-byte datagram: a well-formed 28-byte frame (outer length 17,
outer type `PlayerAction`, reliability type `ChatMessage`) followed by one
trailing byte `0xAA`. -/
def wire29 : List Nat :=
  [0x52, 0x49, 0x46, 0x54, 0x00, 0x01, 0x00, 0x11, 0x02, 0x00, 0x01,
   0x00, 0x01, 0x00, 0x00, 0x00, 0x00, 0x00, 0x00, 0x03, 0x00, 0x00,
   0x00, 0x00, 0x00, 0x00, 0x00, 0x00, 0xAA]

/-! ## Bridging lemmas between the bit operations and arithmetic -/

theorem and_255_eq_mod (n : Nat) : n &&& 255 = n % 256 :=
  Nat.and_pow_two_sub_one_eq_mod n 8

theorem shiftRight_as_div (n k : Nat) : n >>> k = n / 2 ^ k :=
  Nat.shiftRight_eq_div_pow n k

theorem shl_lor_eq_add (a b k : Nat) (h : b < 2 ^ k) :
    (a <<< k) ||| b = a * 2 ^ k + b := by
  apply Nat.eq_of_testBit_eq
  intro i
  rw [Nat.testBit_lor, Nat.testBit_shiftLeft]
  rw [show a * 2 ^ k = 2 ^ k * a by ring]
  rw [Nat.testBit_mul_pow_two_add a h i]
  rcases Nat.lt_or_ge i k with hi | hi
  · simp [hi, Nat.not_le.mpr hi]
  · have hb : Nat.testBit b i = false :=
      Nat.testBit_eq_false_of_lt (Nat.lt_of_lt_of_le h (Nat.pow_le_pow_right (by norm_num) hi))
    simp [hb, Nat.not_lt.mpr hi, hi]

theorem lor_eq_add_of_mul (a b k : Nat) (ha : ∃ c, a = c * 2 ^ k) (hb : b < 2 ^ k) :
    a ||| b = a + b := by
  obtain ⟨c, rfl⟩ := ha
  rw [← Nat.shiftLeft_eq c k, shl_lor_eq_add c b k hb, Nat.shiftLeft_eq c k]

theorem lor_byte_shift (a b s : Nat) (ha : ∃ c, a = c * 2 ^ (s + 8)) (hb : b < 256) :
    a ||| (b <<< s) = a + b * 2 ^ s := by
  rw [Nat.shiftLeft_eq]
  refine lor_eq_add_of_mul a (b * 2 ^ s) (s + 8) ha ?_
  rw [pow_add]
  calc b * 2 ^ s < 256 * 2 ^ s := by
        exact Nat.mul_lt_mul_of_lt_of_le hb (le_refl _) (Nat.pos_pow_of_pos s (by norm_num))
    _ = 2 ^ s * 2 ^ 8 := by ring

theorem byte_lt (v k : Nat) : (v >>> k) &&& 255 < 256 := by
  rw [and_255_eq_mod]
  exact Nat.mod_lt _ (by norm_num)

/-- Reading back the two big-endian bytes of a 16-bit value. -/
theorem be16_round (v : Nat) (h : v < 65536) :
    ((((v >>> 8) &&& 255) <<< 8) ||| (v &&& 255)) = v := by
  rw [shl_lor_eq_add _ _ 8 (by rw [and_255_eq_mod]; omega)]
  rw [and_255_eq_mod, and_255_eq_mod, shiftRight_as_div]
  norm_num
  omega

/-- Reading back the four big-endian bytes of a 32-bit value. -/
theorem be32_round (v : Nat) (h : v < 4294967296) :
    ((((v >>> 24) &&& 255) <<< 24) ||| (((v >>> 16) &&& 255) <<< 16) |||
      (((v >>> 8) &&& 255) <<< 8) ||| (v &&& 255)) = v := by
  rw [lor_byte_shift _ _ 16 ⟨(v >>> 24) &&& 255, by rw [Nat.shiftLeft_eq]⟩ (byte_lt v 16)]
  rw [lor_byte_shift _ _ 8
    ⟨((v >>> 24) &&& 255) * 256 + ((v >>> 16) &&& 255),
      by rw [Nat.shiftLeft_eq]; ring⟩ (byte_lt v 8)]
  rw [lor_eq_add_of_mul _ _ 8
    ⟨((v >>> 24) &&& 255) * 65536 + ((v >>> 16) &&& 255) * 256 + ((v >>> 8) &&& 255),
      by rw [Nat.shiftLeft_eq]; ring⟩ (by rw [and_255_eq_mod]; omega)]
  rw [and_255_eq_mod, and_255_eq_mod, and_255_eq_mod, and_255_eq_mod,
    shiftRight_as_div, shiftRight_as_div, shiftRight_as_div, Nat.shiftLeft_eq]
  norm_num
  omega

/-- Reading back the eight big-endian bytes of a 64-bit value. -/
theorem be64_round (v : Nat) (h : v < 18446744073709551616) :
    ((((v >>> 56) &&& 255) <<< 56) ||| (((v >>> 48) &&& 255) <<< 48) |||
      (((v >>> 40) &&& 255) <<< 40) ||| (((v >>> 32) &&& 255) <<< 32) |||
      (((v >>> 24) &&& 255) <<< 24) ||| (((v >>> 16) &&& 255) <<< 16) |||
      (((v >>> 8) &&& 255) <<< 8) ||| (v &&& 255)) = v := by
  rw [lor_byte_shift _ _ 48 ⟨(v >>> 56) &&& 255, by rw [Nat.shiftLeft_eq]⟩ (byte_lt v 48)]
  rw [lor_byte_shift _ _ 40
    ⟨((v >>> 56) &&& 255) * 256 + ((v >>> 48) &&& 255),
      by rw [Nat.shiftLeft_eq]; ring⟩ (byte_lt v 40)]
  rw [lor_byte_shift _ _ 32
    ⟨((v >>> 56) &&& 255) * 65536 + ((v >>> 48) &&& 255) * 256 + ((v >>> 40) &&& 255),
      by rw [Nat.shiftLeft_eq]; ring⟩ (byte_lt v 32)]
  rw [lor_byte_shift _ _ 24
    ⟨((v >>> 56) &&& 255) * 16777216 + ((v >>> 48) &&& 255) * 65536 +
        ((v >>> 40) &&& 255) * 256 + ((v >>> 32) &&& 255),
      by rw [Nat.shiftLeft_eq]; ring⟩ (byte_lt v 24)]
  rw [lor_byte_shift _ _ 16
    ⟨((v >>> 56) &&& 255) * 4294967296 + ((v >>> 48) &&& 255) * 16777216 +
        ((v >>> 40) &&& 255) * 65536 + ((v >>> 32) &&& 255) * 256 + ((v >>> 24) &&& 255),
      by rw [Nat.shiftLeft_eq]; ring⟩ (byte_lt v 16)]
  rw [lor_byte_shift _ _ 8
    ⟨((v >>> 56) &&& 255) * 1099511627776 + ((v >>> 48) &&& 255) * 4294967296 +
        ((v >>> 40) &&& 255) * 16777216 + ((v >>> 32) &&& 255) * 65536 +
        ((v >>> 24) &&& 255) * 256 + ((v >>> 16) &&& 255),
      by rw [Nat.shiftLeft_eq]; ring⟩ (byte_lt v 8)]
  rw [lor_eq_add_of_mul _ _ 8
    ⟨((v >>> 56) &&& 255) * 281474976710656 + ((v >>> 48) &&& 255) * 1099511627776 +
        ((v >>> 40) &&& 255) * 4294967296 + ((v >>> 32) &&& 255) * 16777216 +
        ((v >>> 24) &&& 255) * 65536 + ((v >>> 16) &&& 255) * 256 + ((v >>> 8) &&& 255),
      by rw [Nat.shiftLeft_eq]; ring⟩ (by rw [and_255_eq_mod]; omega)]
  rw [and_255_eq_mod, and_255_eq_mod, and_255_eq_mod, and_255_eq_mod, and_255_eq_mod,
    and_255_eq_mod, and_255_eq_mod, and_255_eq_mod,
    shiftRight_as_div, shiftRight_as_div, shiftRight_as_div, shiftRight_as_div,
    shiftRight_as_div, shiftRight_as_div, shiftRight_as_div, Nat.shiftLeft_eq]
  norm_num
  omega

/-! ## Helper lemmas on the sender side -/

/-- `WriteFramedReliablePacket` succeeds whenever the payload byte count is
at most `MaxBodySize`, producing outer header, sub-header and body. -/
theorem writeFramed_some (packetId : Nat) (relHdr : ReliablePacketHeader)
    (payload : List Nat) (payloadLen : Nat) (h : payloadLen ≤ 996) :
    WriteFramedReliablePacket packetId relHdr payload payloadLen =
      some (serialize_header
          ⟨PROTOCOL_MAGIC, PROTOCOL_VERSION, RELIABLE_HDR_WIRE_SIZE + payloadLen,
            packetId, relHdr.seq⟩
        ++ serialize_reliable_header relHdr ++ payload.take payloadLen) := by
  unfold WriteFramedReliablePacket
  have h1 : (RELIABLE_HDR_WIRE_SIZE + payloadLen) % 65536 =
      RELIABLE_HDR_WIRE_SIZE + payloadLen := by
    unfold RELIABLE_HDR_WIRE_SIZE
    omega
  rw [h1]
  have h2 : (HEADER_WIRE_SIZE + (RELIABLE_HDR_WIRE_SIZE + payloadLen)) % 65536 =
      HEADER_WIRE_SIZE + (RELIABLE_HDR_WIRE_SIZE + payloadLen) := by
    unfold HEADER_WIRE_SIZE RELIABLE_HDR_WIRE_SIZE
    omega
  have h3 : ¬ HEADER_WIRE_SIZE + (RELIABLE_HDR_WIRE_SIZE + payloadLen) > MAX_PACKET_SIZE := by
    unfold HEADER_WIRE_SIZE RELIABLE_HDR_WIRE_SIZE MAX_PACKET_SIZE
    omega
  simp only [h2, if_neg h3]

/-- The clamped payload size used by `PrepareOutgoingPacketsFramed`. -/
def clampedSize (payload : List Nat) : Nat :=
  if payload.length > MaxBodySize then MaxBodySize else payload.length

theorem clampedSize_le (payload : List Nat) : clampedSize payload ≤ 996 := by
  unfold clampedSize MaxBodySize MAX_PACKET_SIZE HEADER_WIRE_SIZE RELIABLE_HDR_WIRE_SIZE
  split <;> omega

/-- Closed form of `PrepareOutgoingPacketsFramed`: the write always succeeds
(the clamp keeps the wire within `MAX_PACKET_SIZE`), one packet is produced,
the sequence counter advances by one mod 2^16, and exactly one in-flight
entry is appended. -/
theorem prepare_eq (st : ReliableConnectionState) (packetType : Nat)
    (payload : List Nat) (nonce now : Nat) :
    PrepareOutgoingPacketsFramed st packetType payload nonce now =
      ([serialize_header
          ⟨PROTOCOL_MAGIC, PROTOCOL_VERSION, RELIABLE_HDR_WIRE_SIZE + clampedSize payload,
            packetType, st.nextOutgoingSequenceNumber⟩
        ++ serialize_reliable_header
            ⟨st.nextOutgoingSequenceNumber, st.highestReceivedSequenceNumber,
              st.receivedSequenceBitfield, packetType, nonce⟩
        ++ payload.take (clampedSize payload)],
       { st with
          nextOutgoingSequenceNumber := (st.nextOutgoingSequenceNumber + 1) % 65536,
          unacknowledgedSentPackets := st.unacknowledgedSentPackets ++
            [⟨st.nextOutgoingSequenceNumber, packetType, nonce,
              serialize_header
                ⟨PROTOCOL_MAGIC, PROTOCOL_VERSION,
                  RELIABLE_HDR_WIRE_SIZE + clampedSize payload,
                  packetType, st.nextOutgoingSequenceNumber⟩
              ++ serialize_reliable_header
                  ⟨st.nextOutgoingSequenceNumber, st.highestReceivedSequenceNumber,
                    st.receivedSequenceBitfield, packetType, nonce⟩
              ++ payload.take (clampedSize payload), now, 0⟩] }) := by
  unfold PrepareOutgoingPacketsFramed
  rw [show (if payload.length > MaxBodySize then MaxBodySize else payload.length) =
      clampedSize payload from rfl]
  simp only [writeFramed_some packetType _ payload (clampedSize payload) (clampedSize_le payload)]

theorem foldPrepare_next (calls : List PrepareCall) (st : ReliableConnectionState)
    (h : st.nextOutgoingSequenceNumber < 65536) :
    (foldPrepare st calls).nextOutgoingSequenceNumber =
      (st.nextOutgoingSequenceNumber + calls.length) % 65536 := by
  induction calls generalizing st with
  | nil =>
      simp only [foldPrepare, List.foldl_nil, List.length_nil]
      omega
  | cons c rest ih =>
      have step : foldPrepare st (c :: rest) =
          foldPrepare (PrepareOutgoingPacketsFramed st c.ptype c.payload c.nonce c.now).2 rest := by
        rfl
      have hlt : ((PrepareOutgoingPacketsFramed st c.ptype c.payload c.nonce c.now).2).nextOutgoingSequenceNumber < 65536 := by
        rw [prepare_eq]
        exact Nat.mod_lt _ (by norm_num)
      rw [step, ih _ hlt, prepare_eq]
      simp only [List.length_cons]
      omega

theorem MaxBodySize_eq : MaxBodySize = 996 := rfl

theorem clampedSize_of_gt (payload : List Nat) (h : 996 < payload.length) :
    clampedSize payload = 996 := by
  unfold clampedSize
  rw [MaxBodySize_eq, if_pos h]

theorem clampedSize_take996 (payload : List Nat) (h : 996 < payload.length) :
    clampedSize (payload.take 996) = 996 := by
  unfold clampedSize
  rw [MaxBodySize_eq]
  simp [List.length_take]
  omega

/-! ## Claim C2 -/

/-- C2, counterexample: `PrepareOutgoingPacketsFramed` on a 997-byte body does
NOT fail with `PayloadTooLarge` and does NOT leave the reliability state
unchanged: it produces one framed packet, consumes sequence number 1
(advancing the counter to 2) and appends an in-flight entry.  The C++
clamps the oversized body ("clamp for now") instead of rejecting it. -/
theorem oversize_body_clamped_not_rejected :
    (PrepareOutgoingPacketsFramed initReliableState PT_PlayerAction
        (List.replicate 997 7) 5 100).1.length = 1 ∧
    (PrepareOutgoingPacketsFramed initReliableState PT_PlayerAction
        (List.replicate 997 7) 5 100).2.nextOutgoingSequenceNumber = 2 ∧
    (PrepareOutgoingPacketsFramed initReliableState PT_PlayerAction
        (List.replicate 997 7) 5 100).2.unacknowledgedSentPackets.length = 1 := by
  rw [prepare_eq]
  exact ⟨rfl, rfl, rfl⟩

/-- C2, amended: a call to `PrepareOutgoingPacketsFramed` with a body longer
than `MAX_BODY = 996` bytes does not fail; the body is truncated to its
first 996 bytes (the call is equivalent to passing `payload.take 996`), one
framed packet is produced, a sequence number is consumed, and one
in-flight entry is appended. -/
theorem oversize_body_truncated_to_max (st : ReliableConnectionState)
    (packetType : Nat) (payload : List Nat) (nonce now : Nat)
    (h : 996 < payload.length) :
    PrepareOutgoingPacketsFramed st packetType payload nonce now =
      PrepareOutgoingPacketsFramed st packetType (payload.take 996) nonce now ∧
    (PrepareOutgoingPacketsFramed st packetType payload nonce now).1.length = 1 ∧
    (PrepareOutgoingPacketsFramed st packetType payload nonce now).2.nextOutgoingSequenceNumber =
      (st.nextOutgoingSequenceNumber + 1) % 65536 ∧
    (PrepareOutgoingPacketsFramed st packetType payload nonce now).2.unacknowledgedSentPackets.length =
      st.unacknowledgedSentPackets.length + 1 := by
  refine ⟨?_, ?_, ?_, ?_⟩
  · rw [prepare_eq st packetType payload nonce now,
      prepare_eq st packetType (payload.take 996) nonce now,
      clampedSize_take996 payload h, clampedSize_of_gt payload h]
    simp [List.take_take]
  · rw [prepare_eq]
    try rfl
  · rw [prepare_eq]
    try rfl
  · rw [prepare_eq]
    simp only [List.length_append, List.length_cons, List.length_nil]

/-- C2 amended, witness at a 997-byte body. -/
theorem oversize_body_truncated_to_max_witness :
    996 < (List.replicate 997 (7 : Nat)).length ∧
    (PrepareOutgoingPacketsFramed initReliableState PT_GameState
        (List.replicate 997 7) 5 100 =
      PrepareOutgoingPacketsFramed initReliableState PT_GameState
        ((List.replicate 997 7).take 996) 5 100 ∧
    (PrepareOutgoingPacketsFramed initReliableState PT_GameState
        (List.replicate 997 7) 5 100).1.length = 1 ∧
    (PrepareOutgoingPacketsFramed initReliableState PT_GameState
        (List.replicate 997 7) 5 100).2.nextOutgoingSequenceNumber =
      (initReliableState.nextOutgoingSequenceNumber + 1) % 65536 ∧
    (PrepareOutgoingPacketsFramed initReliableState PT_GameState
        (List.replicate 997 7) 5 100).2.unacknowledgedSentPackets.length =
      initReliableState.unacknowledgedSentPackets.length + 1) :=
  ⟨by simp only [List.length_replicate]; omega,
    oversize_body_truncated_to_max initReliableState PT_GameState
      (List.replicate 997 7) 5 100 (by simp only [List.length_replicate]; omega)⟩

/-! ## Claim C3 -/

/-- C3, counterexample: a `ReliableAck` frame with an empty body built by
`PrepareOutgoingPacketsFramed` IS appended to the in-flight list (the C++
tracks every written frame, with no ack-only exclusion). -/
theorem ack_only_frame_tracked_inflight :
    (PrepareOutgoingPacketsFramed initReliableState PT_ReliableAck [] 5 100).2.unacknowledgedSentPackets.length = 1 ∧
    (PrepareOutgoingPacketsFramed initReliableState PT_ReliableAck [] 5 100).1.length = 1 := by
  rw [prepare_eq]
  exact ⟨rfl, rfl⟩

/-- C3, amended: EVERY frame built by `PrepareOutgoingPacketsFramed` —
including `ReliableAck` frames with an empty body — appends exactly one
in-flight entry recording its sequence number, type, header nonce, send
time, zero retries and the framed bytes. -/
theorem every_frame_appends_inflight_entry (st : ReliableConnectionState)
    (packetType : Nat) (payload : List Nat) (nonce now : Nat) :
    (PrepareOutgoingPacketsFramed st packetType payload nonce now).2.unacknowledgedSentPackets =
      st.unacknowledgedSentPackets ++
        [⟨st.nextOutgoingSequenceNumber, packetType, nonce,
          (PrepareOutgoingPacketsFramed st packetType payload nonce now).1.headD [],
          now, 0⟩] := by
  rw [prepare_eq]
  rfl

/-! ## Claim C7 -/

/-- C7, amended: `nextOutgoingSequenceNumber` starts at 1 and each
successful `PrepareOutgoingPacketsFramed` call increments it by one with a
plain `uint16_t` wrap: after N calls it equals `(1 + N) % 2^16`, with NO
skip of 0 on wrap. -/
theorem seq_counter_advances_mod_u16 (calls : List PrepareCall) :
    (foldPrepare initReliableState calls).nextOutgoingSequenceNumber =
      (1 + calls.length) % 65536 :=
  foldPrepare_next calls initReliableState (by norm_num [initReliableState])

/-- C7, counterexample: after 65535 successful sends from the initial state
the counter has wrapped to 0 (the claimed skip of 0 does not happen), and
the 65536th call assigns sequence number 0 to its in-flight entry. -/
theorem seq_zero_assigned_after_wrap :
    (foldPrepare initReliableState
        (List.replicate 65535 ⟨PT_PlayerAction, [], 0, 0⟩)).nextOutgoingSequenceNumber = 0 ∧
    ((PrepareOutgoingPacketsFramed
        (foldPrepare initReliableState (List.replicate 65535 ⟨PT_PlayerAction, [], 0, 0⟩))
        PT_PlayerAction [] 0 0).2.unacknowledgedSentPackets.map
          (fun p => p.sequenceNumber)).getLast? = some 0 := by
  have h0 : (foldPrepare initReliableState
      (List.replicate 65535 ⟨PT_PlayerAction, [], 0, 0⟩)).nextOutgoingSequenceNumber = 0 := by
    rw [foldPrepare_next _ initReliableState (by norm_num [initReliableState])]
    simp only [List.length_replicate, initReliableState]
  refine ⟨h0, ?_⟩
  rw [prepare_eq]
  simp only [List.map_append, List.map_cons, List.map_nil, List.getLast?_concat, h0]

/-! ## Claim C10 -/

/-- C10: before `Initialize` has been called (`initialized = false`),
`SecureChannel::Encrypt` returns an empty byte vector and
`SecureChannel::Decrypt` returns `false`, leaving the caller's output
buffer and the channel state unchanged; both paths are plain early
returns, so neither throws. -/
theorem uninitialized_channel_rejects (ch : SecureChannel)
    (plain enc out : List Nat) (nonce : Nat) (h : ch.initialized = false) :
    ch.Encrypt plain nonce = ([], ch) ∧
    ch.Decrypt enc out nonce = (false, out, ch) := by
  cases ch with
  | mk ini tx rx =>
      cases h
      cases tx <;> cases rx <;>
        exact ⟨rfl, rfl⟩

/-- C10, witness: the freshly constructed channel (`initialized = false`,
null ciphers) rejects both operations. -/
theorem uninitialized_channel_rejects_witness :
    (⟨false, none, none⟩ : SecureChannel).initialized = false ∧
    (SecureChannel.Encrypt ⟨false, none, none⟩ [1, 2] 9 =
        ([], (⟨false, none, none⟩ : SecureChannel)) ∧
      SecureChannel.Decrypt ⟨false, none, none⟩ [3] [4, 5] 9 =
        (false, [4, 5], (⟨false, none, none⟩ : SecureChannel))) :=
  ⟨rfl, uninitialized_channel_rejects ⟨false, none, none⟩ [1, 2] [3] [4, 5] 9 rfl⟩

/-! ## Claim C1 -/

/-- `SecureChannel::Decrypt` never writes any channel member. -/
theorem decrypt_channel_unchanged (ch : SecureChannel) (enc out : List Nat) (nonce : Nat) :
    (ch.Decrypt enc out nonce).2.2 = ch := by
  cases ch with
  | mk ini tx rx =>
      cases ini <;> cases rx <;> simp [SecureChannel.Decrypt]
      split <;> rfl

/-- C1, counterexample: with `last_rx_nonce` at its initial value (the code
counter `nonceRx = 1` is the first candidate), a datagram that decrypts
successfully under candidate nonce 2 — inside the claimed window
`[last_rx_nonce+1, last_rx_nonce+5] = [1, 5]` — is nevertheless dropped,
and the nonce counter advances anyway: the receiver attempts only the
single candidate `nonceRx` and increments it even on `DecryptFailed`. -/
theorem single_candidate_nonce_dropped :
    (SecureChannel.Decrypt chanOkAt2 [9] [] 2).1 = true ∧
    ((estConn chanOkAt2).HandleRawPacket [9]).2 = none ∧
    ((estConn chanOkAt2).HandleRawPacket [9]).1.nonceRx = 2 := by
  refine ⟨by decide, by decide, by decide⟩

/-- C1, amended: on an Established connection the receiver attempts
decryption with exactly one candidate nonce, the current `nonceRx`
(initially 1, i.e. `last_rx_nonce + 1`), and `nonceRx` advances by one
whether or not decryption succeeds; when the single candidate fails the
datagram is dropped and the rest of the connection state is unchanged. -/
theorem single_candidate_nonce_policy (c : Connection) (raw : List Nat)
    (hc : c.handshakeComplete = true) :
    ((c.HandleRawPacket raw).1.nonceRx = c.nonceRx + 1) ∧
    ((c.secureChannel.Decrypt raw [] c.nonceRx).1 = false →
      c.HandleRawPacket raw = ({ c with nonceRx := c.nonceRx + 1 }, none)) := by
  unfold Connection.HandleRawPacket
  rw [hc]
  simp only [Bool.true_eq_false, if_false]
  constructor
  · split
    · rfl
    · split
      · rfl
      · split
        · rfl
        · split
          · rfl
          · split
            · rfl
            · split <;> rfl
  · intro hfail
    rw [if_pos hfail, decrypt_channel_unchanged]

/-- C1 amended, witness: an established connection whose channel fails to
decrypt the datagram advances `nonceRx` from 1 to 2 and drops it. -/
theorem single_candidate_nonce_policy_witness :
    (estConn chanRxFail).handshakeComplete = true ∧
    ((((estConn chanRxFail).HandleRawPacket [9]).1.nonceRx = (estConn chanRxFail).nonceRx + 1) ∧
      (((estConn chanRxFail).secureChannel.Decrypt [9] [] (estConn chanRxFail).nonceRx).1 = false →
        (estConn chanRxFail).HandleRawPacket [9] =
          ({ (estConn chanRxFail) with nonceRx := (estConn chanRxFail).nonceRx + 1 }, none))) :=
  ⟨rfl, single_candidate_nonce_policy (estConn chanRxFail) [9] rfl⟩

/-! ## Claim C4 -/

theorem sendFramed_cases (c : Connection) (frame : List Nat) :
    c.SendFramed frame = (c, none) ∨
      (c.SendFramed frame).1.nonceTx = c.nonceTx + 1 := by
  unfold Connection.SendFramed
  split
  · exact Or.inl rfl
  · split
    · exact Or.inl rfl
    · dsimp only
      split
      · exact Or.inr rfl
      · exact Or.inr rfl

theorem sendSecure_cases (c : Connection) (data : List Nat) :
    c.SendSecure data = (c, none) ∨
      (c.SendSecure data).1.nonceTx = c.nonceTx + 1 := by
  unfold Connection.SendSecure
  split
  · exact Or.inl rfl
  · split
    · exact Or.inl rfl
    · split
      · exact Or.inl rfl
      · dsimp only
        split
        · exact Or.inr rfl
        · exact Or.inr rfl

/-- Per-operation transmit nonce accounting: an operation either is a
complete no-op (emitting nothing), or consumes exactly the entry
`nonceTx`, advancing it by one. -/
theorem applySendOp_cases (c : Connection) (op : SendOp) :
    applySendOp c op = (c, none) ∨
      (applySendOp c op).1.nonceTx = c.nonceTx + 1 := by
  cases op with
  | framed frame => exact sendFramed_cases c frame
  | secure data => exact sendSecure_cases c data

theorem applySendOp_nonceTx (c : Connection) (op : SendOp) :
    (applySendOp c op).1.nonceTx = c.nonceTx ∨
      (applySendOp c op).1.nonceTx = c.nonceTx + 1 := by
  rcases applySendOp_cases c op with h | h
  · rw [h]
    exact Or.inl rfl
  · exact Or.inr h

/-- A datagram is emitted only by an operation that consumed a nonce. -/
theorem applySendOp_datagram_consumes (c : Connection) (op : SendOp)
    (h : (applySendOp c op).2.isSome = true) :
    (applySendOp c op).1.nonceTx = c.nonceTx + 1 := by
  rcases applySendOp_cases c op with h0 | h0
  · rw [h0] at h
    simp at h
  · exact h0

/-- Trace form of the transmit nonce discipline: the consumed nonces of any
operation sequence are the consecutive values starting at the entry
`nonceTx`, the counter ends at entry value plus the number of
consumptions, and every emitted datagram belongs to an operation that
consumed a nonce. -/
theorem runSendOps_trace (ops : List SendOp) (c : Connection) :
    ((runSendOps c ops).2.filterMap (fun e => e.1) =
      List.range' c.nonceTx ((runSendOps c ops).2.filterMap (fun e => e.1)).length) ∧
    ((runSendOps c ops).1.nonceTx =
      c.nonceTx + ((runSendOps c ops).2.filterMap (fun e => e.1)).length) ∧
    (∀ e ∈ (runSendOps c ops).2, e.2.isSome = true → e.1.isSome = true) := by
  induction ops generalizing c with
  | nil =>
      refine ⟨rfl, rfl, ?_⟩
      intro e he
      simp [runSendOps] at he
  | cons op rest ih =>
      have hstep : runSendOps c (op :: rest) =
          ((runSendOps (applySendOp c op).1 rest).1,
            ((if (applySendOp c op).1.nonceTx = c.nonceTx then none else some c.nonceTx),
              (applySendOp c op).2) :: (runSendOps (applySendOp c op).1 rest).2) := rfl
      obtain ⟨ih1, ih2, ih3⟩ := ih (applySendOp c op).1
      by_cases hn : (applySendOp c op).1.nonceTx = c.nonceTx
      · rw [hstep]
        simp only [if_pos hn, List.filterMap_cons, List.mem_cons]
        refine ⟨?_, ?_, ?_⟩
        · rw [ih1, hn]
          simp only [List.length_range']
        · rw [ih2, hn]
        · intro e he
          rcases he with he | he
          · subst he
            intro hd
            exfalso
            have := applySendOp_datagram_consumes c op hd
            omega
          · exact ih3 e he
      · have hn1 : (applySendOp c op).1.nonceTx = c.nonceTx + 1 := by
          rcases applySendOp_nonceTx c op with h | h
          · exact absurd h hn
          · exact h
        rw [hstep]
        simp only [if_neg hn, List.filterMap_cons, List.mem_cons]
        simp only [List.length_cons]
        refine ⟨?_, ?_, ?_⟩
        · rw [List.range'_succ]
          rw [ih1, hn1]
          simp only [List.length_range']
        · rw [ih2, hn1]
          omega
        · intro e he
          rcases he with he | he
          · subst he
            intro
            rfl
          · exact ih3 e he

/-- C4: on an established connection with a fresh transmit counter
(`nonceTx = 1`, as set by the constructor), any sequence of sends — framed
sends, retransmissions of stored in-flight wires (which go through the
same `SendFramed` path) and `SendSecure` sends — consumes the consecutive
nonces 1, 2, 3, …: the recorded nonce trace is exactly `range' 1 k`, the
counter ends at `1 + k` (never reset or decremented), and every emitted
encrypted datagram comes from an operation that consumed one of these
nonces, so any two datagrams carry distinct, strictly increasing nonces. -/
theorem tx_nonce_consecutive_from_one (ops : List SendOp) (ch : SecureChannel)
    (kd : List Nat → Option SecureChannel) (comp decomp : List Nat → Option (List Nat))
    (rs : ReliableConnectionState) (nrx : Nat) :
    ((runSendOps ⟨true, nrx, 1, rs, ch, kd, comp, decomp⟩ ops).2.filterMap (fun e => e.1) =
      List.range' 1
        ((runSendOps ⟨true, nrx, 1, rs, ch, kd, comp, decomp⟩ ops).2.filterMap
          (fun e => e.1)).length) ∧
    ((runSendOps ⟨true, nrx, 1, rs, ch, kd, comp, decomp⟩ ops).1.nonceTx =
      1 + ((runSendOps ⟨true, nrx, 1, rs, ch, kd, comp, decomp⟩ ops).2.filterMap
          (fun e => e.1)).length) ∧
    (∀ e ∈ (runSendOps ⟨true, nrx, 1, rs, ch, kd, comp, decomp⟩ ops).2,
      e.2.isSome = true → e.1.isSome = true) :=
  runSendOps_trace ops ⟨true, nrx, 1, rs, ch, kd, comp, decomp⟩

/-! ## Claim C5 -/

/-- C5, counterexample: the trace of incoming sequence numbers
1, 32768, 65535, 1 delivers every frame — the final arrival of the
already-accepted sequence 1 is classified more-recent again (the window
has advanced by ≥ 2^15 twice) and its body is delivered a second time,
instead of being dropped as Duplicate or TooOld. -/
theorem duplicate_seq_redelivered_after_wrap :
    (runIncomingDeliveries initReliableState
        [(mkTestHeader 1, [171]), (mkTestHeader 32768, [171]),
         (mkTestHeader 65535, [171]), (mkTestHeader 1, [171])]).1 =
      [true, true, true, true] := by
  decide

/-- C5, amended: an arrival whose sequence is NOT classified wrap-aware
more-recent than `highest_received_seq` and that is either at promoted
distance ≥ 32 (TooOld) or has its window bit already set (Duplicate) is
dropped without re-delivery, leaving the receive window unchanged.
(Re-delivery of an accepted seq is possible only once the window head has
advanced past it by 2^15 or more, as in the counterexample.) -/
theorem seen_or_old_seq_dropped (st : ReliableConnectionState)
    (header : ReliablePacketHeader) (payload : List Nat)
    (h1 : IsSequenceMoreRecent header.seq st.highestReceivedSequenceNumber = false)
    (h2 : 32 ≤ cppU32Diff st.highestReceivedSequenceNumber header.seq ∨
      ((st.receivedSequenceBitfield >>>
          cppU32Diff st.highestReceivedSequenceNumber header.seq) &&& 1) = 1) :
    (ProcessIncomingHeader st header payload).1 = false ∧
    (ProcessIncomingHeader st header payload).2.2.highestReceivedSequenceNumber =
      st.highestReceivedSequenceNumber ∧
    (ProcessIncomingHeader st header payload).2.2.receivedSequenceBitfield =
      st.receivedSequenceBitfield := by
  unfold ProcessIncomingHeader
  simp only [h1, Bool.false_eq_true, if_false]
  by_cases hdlt : cppU32Diff st.highestReceivedSequenceNumber header.seq < 32
  · have hbit : ((st.receivedSequenceBitfield >>>
        cppU32Diff st.highestReceivedSequenceNumber header.seq) &&& 1) = 1 := by
      rcases h2 with h2 | h2
      · omega
      · exact h2
    simp only [if_pos hdlt, if_pos hbit]
    exact ⟨by trivial, by trivial, by trivial⟩
  · simp only [if_neg hdlt]
    exact ⟨by trivial, by trivial, by trivial⟩

/-- C5 amended, witness: a duplicate of the already-accepted sequence 10 is
dropped and the window is unchanged. -/
theorem seen_or_old_seq_dropped_witness :
    IsSequenceMoreRecent (mkTestHeader 10).seq stSeen10.highestReceivedSequenceNumber = false ∧
    ((32 ≤ cppU32Diff stSeen10.highestReceivedSequenceNumber (mkTestHeader 10).seq ∨
      ((stSeen10.receivedSequenceBitfield >>>
          cppU32Diff stSeen10.highestReceivedSequenceNumber (mkTestHeader 10).seq) &&& 1) = 1) ∧
    ((ProcessIncomingHeader stSeen10 (mkTestHeader 10) [1, 2]).1 = false ∧
      (ProcessIncomingHeader stSeen10 (mkTestHeader 10) [1, 2]).2.2.highestReceivedSequenceNumber =
        stSeen10.highestReceivedSequenceNumber ∧
      (ProcessIncomingHeader stSeen10 (mkTestHeader 10) [1, 2]).2.2.receivedSequenceBitfield =
        stSeen10.receivedSequenceBitfield)) :=
  ⟨by decide, Or.inr (by decide),
    seen_or_old_seq_dropped stSeen10 (mkTestHeader 10) [1, 2] (by decide) (Or.inr (by decide))⟩

/-! ## Claim C6 -/

theorem cppU16Diff_eq (a b : Nat) (ha : a < 65536) (hb : b < 65536) :
    cppU16Diff a b = (a + 65536 - b) % 65536 := by
  unfold cppU16Diff
  omega

/-- `(b >>> k) &&& 1 = 1` is exactly `Nat.testBit b k`. -/
theorem shiftRight_and_one_testBit (b k : Nat) :
    (((b >>> k) &&& 1) = 1) ↔ Nat.testBit b k := by
  rw [Nat.testBit_to_div_mod, Nat.and_one_is_mod, shiftRight_as_div]
  simp

/-- A wrapped difference in `[1, 32]` makes the first argument more recent
than the second, under both the code comparison (`>=` at the midpoint) and
the spec comparison (`>` at the midpoint): the midpoint case has wrapped
difference 2^15, which `[1, 32]` excludes. -/
theorem moreRecent_of_small_diff (a s : Nat) (ha : a < 65536) (hs : s < 65536)
    (h1 : 1 ≤ (a + 65536 - s) % 65536) (h2 : (a + 65536 - s) % 65536 ≤ 32) :
    IsSequenceMoreRecent a s = true ∧ specMoreRecent a s := by
  unfold IsSequenceMoreRecent specMoreRecent
  simp only [Bool.or_eq_true, Bool.and_eq_true, decide_eq_true_eq, gt_iff_lt, ge_iff_le]
  omega

/-- The per-entry acknowledgement test of the code coincides with the
claim's characterization (seq equal to ack, or wrapped difference in
`[1, 32]` with the matching bitfield bit set, under the wrap-aware
more-recent comparison). -/
theorem ackMatches_iff_spec (a b s : Nat) (ha : a < 65536) (hs : s < 65536) :
    ackMatches a b s = true ↔ specAckCovered a b s := by
  unfold ackMatches specAckCovered
  by_cases he : a = s
  · simp [he]
  · rw [if_neg he]
    rw [cppU16Diff_eq a s ha hs]
    by_cases hmr : IsSequenceMoreRecent a s = true
    · rw [if_pos hmr]
      by_cases hrange : 1 ≤ (a + 65536 - s) % 65536 ∧ (a + 65536 - s) % 65536 ≤ 32
      · rw [if_pos hrange]
        have hspec := (moreRecent_of_small_diff a s ha hs hrange.1 hrange.2).2
        simp only [decide_eq_true_eq, shiftRight_and_one_testBit]
        constructor
        · intro hbit
          exact Or.inr ⟨hspec, hrange.1, hrange.2, hbit⟩
        · intro hc
          rcases hc with hc | hc
          · exact absurd hc.symm he
          · exact hc.2.2.2
      · rw [if_neg hrange]
        simp only [Bool.false_eq_true, false_iff]
        intro hc
        rcases hc with hc | hc
        · exact he hc.symm
        · exact hrange ⟨hc.2.1, hc.2.2.1⟩
    · rw [if_neg hmr]
      simp only [Bool.false_eq_true, false_iff]
      intro hc
      rcases hc with hc | hc
      · exact he hc.symm
      · exact hmr (moreRecent_of_small_diff a s ha hs hc.2.1 hc.2.2.1).1

/-- The only change `ProcessIncomingHeader` makes to the in-flight list is
the removal pass: the result list is the filter keeping non-acknowledged
entries. -/
theorem processIncoming_unacked (st : ReliableConnectionState)
    (header : ReliablePacketHeader) (payload : List Nat) :
    (ProcessIncomingHeader st header payload).2.2.unacknowledgedSentPackets =
      st.unacknowledgedSentPackets.filter
        (fun p => ! ackMatches header.ack header.ackBitfield p.sequenceNumber) := by
  unfold ProcessIncomingHeader
  dsimp only
  split
  · split <;> rfl
  · split
    · split
      · rfl
      · split <;> rfl
    · rfl

/-- C6: `process_incoming` on a frame carrying `(ack = A, bitfield = B)`
keeps an in-flight entry exactly when it was there before and is not
covered by the claim's acknowledgement characterization (seq = A, or A
wrap-aware more recent with `A - seq ∈ [1, 32]` and bit `A - seq - 1` of B
set); re-processing the same acknowledgement is a no-op on the in-flight
list (acknowledging an already-removed seq removes nothing further). -/
theorem ack_removes_exactly_covered (st : ReliableConnectionState)
    (header : ReliablePacketHeader) (payload : List Nat) (p : ReliablePacket)
    (hA : header.ack < 65536) (hp : p.sequenceNumber < 65536) :
    (p ∈ (ProcessIncomingHeader st header payload).2.2.unacknowledgedSentPackets ↔
      (p ∈ st.unacknowledgedSentPackets ∧
        ¬ specAckCovered header.ack header.ackBitfield p.sequenceNumber)) ∧
    (ProcessIncomingHeader (ProcessIncomingHeader st header payload).2.2 header
        payload).2.2.unacknowledgedSentPackets =
      (ProcessIncomingHeader st header payload).2.2.unacknowledgedSentPackets := by
  constructor
  · rw [processIncoming_unacked, List.mem_filter]
    have hb := ackMatches_iff_spec header.ack header.ackBitfield p.sequenceNumber hA hp
    constructor
    · rintro ⟨hmem, hkeep⟩
      refine ⟨hmem, ?_⟩
      intro hspec
      rw [← hb] at hspec
      rw [hspec] at hkeep
      simp at hkeep
    · rintro ⟨hmem, hspec⟩
      refine ⟨hmem, ?_⟩
      rw [← hb] at hspec
      cases hx : ackMatches header.ack header.ackBitfield p.sequenceNumber
      · rfl
      · exact absurd hx hspec
  · rw [processIncoming_unacked, processIncoming_unacked, List.filter_filter]
    simp

/-- C6, witness: acknowledging `(ack = 7, bitfield = 8)` against in-flight
entries 3 and 7: entry 3 (covered by bit 3) is removed. -/
theorem ack_removes_exactly_covered_witness :
    hdrAck7.ack < 65536 ∧ entrySeq3.sequenceNumber < 65536 ∧
    ((entrySeq3 ∈ (ProcessIncomingHeader stTwoInflight hdrAck7 [9]).2.2.unacknowledgedSentPackets ↔
      (entrySeq3 ∈ stTwoInflight.unacknowledgedSentPackets ∧
        ¬ specAckCovered hdrAck7.ack hdrAck7.ackBitfield entrySeq3.sequenceNumber)) ∧
    (ProcessIncomingHeader (ProcessIncomingHeader stTwoInflight hdrAck7 [9]).2.2 hdrAck7
        [9]).2.2.unacknowledgedSentPackets =
      (ProcessIncomingHeader stTwoInflight hdrAck7 [9]).2.2.unacknowledgedSentPackets) :=
  ⟨by decide, by decide,
    ack_removes_exactly_covered stTwoInflight hdrAck7 [9] entrySeq3 (by decide) (by decide)⟩

/-! ## Claim C8 -/

/-- C8, counterexample: a 29-byte datagram whose outer length field is 17
(so `outer.length + 11 = 28 ≠ 29`, the claimed `LengthMismatch`) and whose
outer type byte (2, `PlayerAction`) differs from the reliability
sub-header type byte (3, `ChatMessage`, the claimed `TypeMismatch`)
nevertheless decodes successfully: the reader tolerates trailing bytes and
never compares the two type bytes. -/
theorem trailing_and_type_mismatch_decode_ok :
    wire29.length = 29 ∧ be_read16 wire29 6 = 17 ∧
    ReadFramedReliablePacket wire29 =
      some (⟨PROTOCOL_MAGIC, PROTOCOL_VERSION, 17, PT_PlayerAction, 1⟩,
        ⟨1, 0, 0, PT_ChatMessage, 0⟩, []) := by
  refine ⟨by decide, by decide, by decide⟩

/-- For an input of at least 11 bytes, `parse_header` returns the read
fields together with the first failing check, if any. -/
theorem parse_header_spec (l : List Nat) (h11 : ¬ l.length < 11) :
    parse_header l =
      (⟨be_read32 l 0, be_read16 l 4, be_read16 l 6, l.getD 8 0, be_read16 l 9⟩,
        if be_read32 l 0 ≠ PROTOCOL_MAGIC then ParseError.badMagic
        else if be_read16 l 4 ≠ PROTOCOL_VERSION then ParseError.unsupportedVer
        else if be_read16 l 6 > MAX_PAYLOAD_SIZE then ParseError.lengthTooLarge
        else ParseError.noErr) := by
  have h11' : ¬ l.length < HEADER_WIRE_SIZE := by
    unfold HEADER_WIRE_SIZE
    omega
  unfold parse_header
  rw [if_neg h11']
  dsimp only
  split_ifs <;> rfl

/-- C8, amended: `ReadFramedReliablePacket` fails exactly when the input is
shorter than 28 bytes, the magic differs, the version differs, the outer
length field exceeds `MAX_PAYLOAD_SIZE = 1013`, the datagram is shorter
than `outer.length + 11` (longer inputs with trailing bytes are accepted),
or the outer length is below the 17-byte sub-header size; no outer-versus-
reliability type comparison is performed. -/
theorem decode_err_iff (wire : List Nat) :
    ReadFramedReliablePacket wire = none ↔
      (wire.length < 28 ∨
       be_read32 wire 0 ≠ PROTOCOL_MAGIC ∨
       be_read16 wire 4 ≠ PROTOCOL_VERSION ∨
       1013 < be_read16 wire 6 ∨
       wire.length < 11 + be_read16 wire 6 ∨
       be_read16 wire 6 < 17) := by
  by_cases h0 : wire.length < 28
  · have h0' : wire.length < HEADER_WIRE_SIZE + RELIABLE_HDR_WIRE_SIZE := by
      unfold HEADER_WIRE_SIZE RELIABLE_HDR_WIRE_SIZE
      omega
    simp only [ReadFramedReliablePacket, if_pos h0']
    simp [h0]
  · have h0' : ¬ wire.length < HEADER_WIRE_SIZE + RELIABLE_HDR_WIRE_SIZE := by
      unfold HEADER_WIRE_SIZE RELIABLE_HDR_WIRE_SIZE
      omega
    have h11 : ¬ wire.length < 11 := by omega
    simp only [ReadFramedReliablePacket, if_neg h0', parse_header_spec wire h11]
    by_cases hm : be_read32 wire 0 = PROTOCOL_MAGIC
    · rw [if_neg (show ¬ be_read32 wire 0 ≠ PROTOCOL_MAGIC from fun hc => hc hm)]
      by_cases hv : be_read16 wire 4 = PROTOCOL_VERSION
      · rw [if_neg (show ¬ be_read16 wire 4 ≠ PROTOCOL_VERSION from fun hc => hc hv)]
        by_cases hl : be_read16 wire 6 > MAX_PAYLOAD_SIZE
        · have hl' : 1013 < be_read16 wire 6 := by
            unfold MAX_PAYLOAD_SIZE MAX_PACKET_SIZE HEADER_WIRE_SIZE at hl
            omega
          rw [if_pos hl]
          simp [hl']
        · have hl' : ¬ 1013 < be_read16 wire 6 := by
            unfold MAX_PAYLOAD_SIZE MAX_PACKET_SIZE HEADER_WIRE_SIZE at hl
            omega
          rw [if_neg hl]
          by_cases hw : wire.length < HEADER_WIRE_SIZE + be_read16 wire 6
          · have hw' : wire.length < 11 + be_read16 wire 6 := by
              unfold HEADER_WIRE_SIZE at hw
              omega
            simp only [ne_eq, not_true_eq_false, if_false, if_pos hw]
            simp [hw']
          · have hw' : ¬ wire.length < 11 + be_read16 wire 6 := by
              unfold HEADER_WIRE_SIZE at hw
              omega
            simp only [ne_eq, not_true_eq_false, if_false, if_neg hw]
            by_cases h17 : be_read16 wire 6 < RELIABLE_HDR_WIRE_SIZE
            · have h17' : be_read16 wire 6 < 17 := by
                unfold RELIABLE_HDR_WIRE_SIZE at h17
                omega
              rw [if_pos h17]
              simp [h17']
            · have h17' : ¬ be_read16 wire 6 < 17 := by
                unfold RELIABLE_HDR_WIRE_SIZE at h17
                omega
              rw [if_neg h17]
              simp only [parse_reliable_header, if_neg h17]
              simp [h0, hm, hv, hl', hw', h17']
      · rw [if_pos (show be_read16 wire 4 ≠ PROTOCOL_VERSION from hv)]
        simp [hv]
    · rw [if_pos (show be_read32 wire 0 ≠ PROTOCOL_MAGIC from hm)]
      simp [hm]

/-! ## Claim C9 -/

/-- Symbolic extraction of every field read the decoder performs on a
serialized frame; each equation is definitional. -/
theorem framedWire_reads (M V L T S s a b t n : Nat) (body : List Nat) :
    be_read32 (framedWire M V L T S s a b t n body) 0 =
      ((((M >>> 24) &&& 255) <<< 24) ||| (((M >>> 16) &&& 255) <<< 16) |||
        (((M >>> 8) &&& 255) <<< 8) ||| (M &&& 255)) ∧
    be_read16 (framedWire M V L T S s a b t n body) 4 =
      ((((V >>> 8) &&& 255) <<< 8) ||| (V &&& 255)) ∧
    be_read16 (framedWire M V L T S s a b t n body) 6 =
      ((((L >>> 8) &&& 255) <<< 8) ||| (L &&& 255)) ∧
    (framedWire M V L T S s a b t n body).getD 8 0 = T &&& 255 ∧
    be_read16 (framedWire M V L T S s a b t n body) 9 =
      ((((S >>> 8) &&& 255) <<< 8) ||| (S &&& 255)) ∧
    (framedWire M V L T S s a b t n body).drop HEADER_WIRE_SIZE =
      serialize_reliable_header ⟨s, a, b, t, n⟩ ++ body ∧
    (framedWire M V L T S s a b t n body).drop
      (HEADER_WIRE_SIZE + RELIABLE_HDR_WIRE_SIZE) = body :=
  ⟨rfl, rfl, rfl, rfl, rfl, rfl, rfl⟩

/-- Symbolic extraction of the sub-header reads. -/
theorem relWire_reads (s a b t n : Nat) (body : List Nat) :
    be_read16 (serialize_reliable_header ⟨s, a, b, t, n⟩ ++ body) 0 =
      ((((s >>> 8) &&& 255) <<< 8) ||| (s &&& 255)) ∧
    be_read16 (serialize_reliable_header ⟨s, a, b, t, n⟩ ++ body) 2 =
      ((((a >>> 8) &&& 255) <<< 8) ||| (a &&& 255)) ∧
    be_read32 (serialize_reliable_header ⟨s, a, b, t, n⟩ ++ body) 4 =
      ((((b >>> 24) &&& 255) <<< 24) ||| (((b >>> 16) &&& 255) <<< 16) |||
        (((b >>> 8) &&& 255) <<< 8) ||| (b &&& 255)) ∧
    (serialize_reliable_header ⟨s, a, b, t, n⟩ ++ body).getD 8 0 = t &&& 255 ∧
    be_read64 (serialize_reliable_header ⟨s, a, b, t, n⟩ ++ body) 9 =
      ((((n >>> 56) &&& 255) <<< 56) ||| (((n >>> 48) &&& 255) <<< 48) |||
        (((n >>> 40) &&& 255) <<< 40) ||| (((n >>> 32) &&& 255) <<< 32) |||
        (((n >>> 24) &&& 255) <<< 24) ||| (((n >>> 16) &&& 255) <<< 16) |||
        (((n >>> 8) &&& 255) <<< 8) ||| (n &&& 255)) :=
  ⟨rfl, rfl, rfl, rfl, rfl⟩

/-- The serialized frame is 28 bytes of headers plus the body. -/
theorem framedWire_length (M V L T S s a b t n : Nat) (body : List Nat) :
    (framedWire M V L T S s a b t n body).length = 28 + body.length := by
  unfold framedWire
  simp [serialize_header, serialize_reliable_header, be_write32, be_write16, be_write64]
  omega

/-- `ReadFramedReliablePacket` on a well-formed serialized frame recovers
the outer header, the reliability sub-header and the body. -/
theorem read_of_serialized (L T S s a b t n : Nat) (body : List Nat)
    (hL : L = 17 + body.length) (hlen : body.length ≤ 996)
    (hT : T < 256) (hS : S < 65536) (hs : s < 65536) (ha : a < 65536)
    (hb : b < 4294967296) (hn : n < 18446744073709551616) (ht : t < 256) :
    ReadFramedReliablePacket
        (framedWire PROTOCOL_MAGIC PROTOCOL_VERSION L T S s a b t n body) =
      some (⟨PROTOCOL_MAGIC, PROTOCOL_VERSION, L, T, S⟩, ⟨s, a, b, t, n⟩, body) := by
  obtain ⟨f_magic, f_ver, f_len, f_type, f_seq, f_drop, f_body⟩ :=
    framedWire_reads PROTOCOL_MAGIC PROTOCOL_VERSION L T S s a b t n body
  obtain ⟨g_seq, g_ack, g_bf, g_type, g_nonce⟩ := relWire_reads s a b t n body
  have hwl := framedWire_length PROTOCOL_MAGIC PROTOCOL_VERSION L T S s a b t n body
  have e_magic : be_read32 (framedWire PROTOCOL_MAGIC PROTOCOL_VERSION L T S s a b t n body) 0 =
      PROTOCOL_MAGIC := by
    rw [f_magic]
    exact be32_round PROTOCOL_MAGIC (by unfold PROTOCOL_MAGIC; norm_num)
  have e_ver : be_read16 (framedWire PROTOCOL_MAGIC PROTOCOL_VERSION L T S s a b t n body) 4 =
      PROTOCOL_VERSION := by
    rw [f_ver]
    exact be16_round PROTOCOL_VERSION (by unfold PROTOCOL_VERSION; norm_num)
  have e_len : be_read16 (framedWire PROTOCOL_MAGIC PROTOCOL_VERSION L T S s a b t n body) 6 =
      L := by
    rw [f_len]
    exact be16_round L (by omega)
  have e_type : (framedWire PROTOCOL_MAGIC PROTOCOL_VERSION L T S s a b t n body).getD 8 0 =
      T := by
    rw [f_type, and_255_eq_mod]
    omega
  have e_seq : be_read16 (framedWire PROTOCOL_MAGIC PROTOCOL_VERSION L T S s a b t n body) 9 =
      S := by
    rw [f_seq]
    exact be16_round S hS
  have r_seq : be_read16 (serialize_reliable_header ⟨s, a, b, t, n⟩ ++ body) 0 = s := by
    rw [g_seq]
    exact be16_round s hs
  have r_ack : be_read16 (serialize_reliable_header ⟨s, a, b, t, n⟩ ++ body) 2 = a := by
    rw [g_ack]
    exact be16_round a ha
  have r_bf : be_read32 (serialize_reliable_header ⟨s, a, b, t, n⟩ ++ body) 4 = b := by
    rw [g_bf]
    exact be32_round b hb
  have r_type : (serialize_reliable_header ⟨s, a, b, t, n⟩ ++ body).getD 8 0 = t := by
    rw [g_type, and_255_eq_mod]
    omega
  have r_nonce : be_read64 (serialize_reliable_header ⟨s, a, b, t, n⟩ ++ body) 9 = n := by
    rw [g_nonce]
    exact be64_round n hn
  have h28 : ¬ (framedWire PROTOCOL_MAGIC PROTOCOL_VERSION L T S s a b t n body).length <
      HEADER_WIRE_SIZE + RELIABLE_HDR_WIRE_SIZE := by
    unfold HEADER_WIRE_SIZE RELIABLE_HDR_WIRE_SIZE
    omega
  have h11 : ¬ (framedWire PROTOCOL_MAGIC PROTOCOL_VERSION L T S s a b t n body).length < 11 := by
    omega
  unfold ReadFramedReliablePacket
  rw [if_neg h28, parse_header_spec _ h11]
  rw [e_magic, e_ver, e_len, e_type, e_seq]
  have hmax : ¬ L > MAX_PAYLOAD_SIZE := by
    unfold MAX_PAYLOAD_SIZE MAX_PACKET_SIZE HEADER_WIRE_SIZE
    omega
  rw [if_neg (show ¬ PROTOCOL_MAGIC ≠ PROTOCOL_MAGIC from fun hc => hc rfl)]
  rw [if_neg (show ¬ PROTOCOL_VERSION ≠ PROTOCOL_VERSION from fun hc => hc rfl)]
  rw [if_neg hmax]
  have hwlen : ¬ (framedWire PROTOCOL_MAGIC PROTOCOL_VERSION L T S s a b t n body).length <
      HEADER_WIRE_SIZE + L := by
    unfold HEADER_WIRE_SIZE
    omega
  have h17 : ¬ L < RELIABLE_HDR_WIRE_SIZE := by
    unfold RELIABLE_HDR_WIRE_SIZE
    omega
  simp only [ne_eq, not_true_eq_false, if_false, if_neg hwlen, if_neg h17]
  rw [f_drop]
  unfold parse_reliable_header
  rw [if_neg h17]
  rw [r_seq, r_ack, r_bf, r_type, r_nonce]
  simp only [ne_eq, not_true_eq_false, if_false]
  rw [f_body]
  rw [show L - RELIABLE_HDR_WIRE_SIZE = body.length from by
    unfold RELIABLE_HDR_WIRE_SIZE
    omega]
  rw [List.take_length]

/-- C9: for every type byte T, sub-header field values in range, and body
of at most 996 bytes, `WriteFramedReliablePacket` succeeds and decoding
the produced bytes with `ReadFramedReliablePacket` returns the same outer
type, the same sub-header field values, and the same body byte for
byte. -/
theorem frame_roundtrip (t seq ack bf nonce : Nat) (body : List Nat)
    (ht : t < 256) (hs : seq < 65536) (ha : ack < 65536)
    (hbf : bf < 4294967296) (hn : nonce < 18446744073709551616)
    (hl : body.length ≤ 996) :
    (WriteFramedReliablePacket t ⟨seq, ack, bf, t, nonce⟩ body body.length).isSome = true ∧
    ReadFramedReliablePacket
        ((WriteFramedReliablePacket t ⟨seq, ack, bf, t, nonce⟩ body body.length).getD []) =
      some (⟨PROTOCOL_MAGIC, PROTOCOL_VERSION, RELIABLE_HDR_WIRE_SIZE + body.length, t, seq⟩,
        ⟨seq, ack, bf, t, nonce⟩, body) := by
  rw [writeFramed_some t ⟨seq, ack, bf, t, nonce⟩ body body.length hl]
  refine ⟨rfl, ?_⟩
  simp only [Option.getD_some]
  rw [List.take_length]
  exact read_of_serialized (RELIABLE_HDR_WIRE_SIZE + body.length) t seq seq ack bf t nonce body
    (by unfold RELIABLE_HDR_WIRE_SIZE; omega) hl ht hs hs ha hbf hn ht

/-- C9, witness: a concrete `GameState` frame with body `[1, 2, 3]` and
sub-header `(seq 7, ack 3, bitfield 5, nonce 9)` round-trips. -/
theorem frame_roundtrip_witness :
    PT_GameState < 256 ∧ 7 < 65536 ∧ 3 < 65536 ∧ 5 < 4294967296 ∧
    9 < 18446744073709551616 ∧ ([1, 2, 3] : List Nat).length ≤ 996 ∧
    ((WriteFramedReliablePacket PT_GameState ⟨7, 3, 5, PT_GameState, 9⟩ [1, 2, 3]
        ([1, 2, 3] : List Nat).length).isSome = true ∧
      ReadFramedReliablePacket
          ((WriteFramedReliablePacket PT_GameState ⟨7, 3, 5, PT_GameState, 9⟩ [1, 2, 3]
            ([1, 2, 3] : List Nat).length).getD []) =
        some (⟨PROTOCOL_MAGIC, PROTOCOL_VERSION,
            RELIABLE_HDR_WIRE_SIZE + ([1, 2, 3] : List Nat).length, PT_GameState, 7⟩,
          ⟨7, 3, 5, PT_GameState, 9⟩, [1, 2, 3])) :=
  ⟨by decide, by decide, by decide, by decide, by decide, by decide,
    frame_roundtrip PT_GameState 7 3 5 9 [1, 2, 3] (by decide) (by decide) (by decide)
      (by decide) (by decide) (by decide)⟩

end RiftNet
